import Mathlib

/-!
Shallow embedding of the Clawlet rust core (`src/rust-core/src/lib.rs`):
the unified-diff patch validator `validate_patch` and the bounded process
executor `execute_command_argv`, together with theorems checking the
specified behaviour against this embedding.

Lines of a patch are modelled as `List Char`; the splitting of a patch
string into lines mirrors Rust `str::lines` (split at `'\n'`, strip a
trailing `'\r'` from every line that was terminated by `'\n'`, no final
empty line).  Machine integers (`usize`) are modelled as `Nat` with the
overflow bound `2 ^ 64` made explicit where the source can overflow.
-/

namespace Clawlet

/-! ### Characters, whitespace and line splitting -/

/-- The Unicode White_Space characters recognised by Rust
`char::is_whitespace`, hence by `str::trim`. -/
def rustWhitespaceChars : List Char :=
  ['\t', '\n', '\x0b', '\x0c', '\r', ' ', '\u0085', '\u00A0', '\u1680',
   '\u2000', '\u2001', '\u2002', '\u2003', '\u2004', '\u2005', '\u2006',
   '\u2007', '\u2008', '\u2009', '\u200A', '\u2028', '\u2029', '\u202F',
   '\u205F', '\u3000']

/-- Rust whitespace test: `patch.trim().is_empty()` holds iff every
character of `patch` satisfies this predicate. -/
def isRustWhitespace (c : Char) : Bool :=
  rustWhitespaceChars.contains c

/-- Split a character list at newline characters; every `'\n'` ends a
segment, and the (possibly empty) tail after the last `'\n'` is the last
segment. -/
def splitNl : List Char → List (List Char)
  | [] => [[]]
  | c :: rest =>
    if c = '\n' then [] :: splitNl rest
    else
      match splitNl rest with
      | [] => [[c]]
      | seg :: segs => (c :: seg) :: segs

/-- Remove a single trailing `'\r'`, as Rust `str::lines` does for lines
terminated by `"\r\n"`. -/
def stripCR (l : List Char) : List Char :=
  if l.getLast? = some '\r' then l.dropLast else l

/-- Rust `str::lines` on a character list: segments before a `'\n'` get a
trailing `'\r'` stripped; a final empty segment (text ending in `'\n'`,
or empty text) yields no line; a final non-empty segment is kept as-is. -/
def rustLines (cs : List Char) : List (List Char) :=
  let parts := splitNl cs
  match parts.getLast? with
  | some [] => parts.dropLast.map stripCR
  | some lst => parts.dropLast.map stripCR ++ [lst]
  | none => []

/-! ### The hunk header pattern

The source matches each line against the regex
`^@@ -(\d+)(?:,(\d+))? \+(\d+)(?:,(\d+))? @@` (lib.rs line 24).  The
pattern is anchored at the start only; text after the closing `@@` is
ignored.  Since every `\d+` is a maximal digit run followed by a
non-digit in the pattern, the regex is equivalent to the deterministic
maximal-munch parser below. -/

/-- Literal `"@@ -"` opening the header pattern. -/
def hdrStart : List Char := ['@', '@', ' ', '-']

/-- Literal `" +"` between the old and the new range of the pattern. -/
def hdrMid : List Char := [' ', '+']

/-- Literal `" @@"` closing the header pattern. -/
def hdrEnd : List Char := [' ', '@', '@']

/-- Drop an expected literal from the front of a list of characters,
failing when it is not there. -/
def dropLit : List Char → List Char → Option (List Char)
  | [], cs => some cs
  | _ :: _, [] => none
  | p :: ps, c :: cs => if p = c then dropLit ps cs else none

/-- Maximal run of ASCII digits at the front, with the remainder. -/
def takeDigits : List Char → List Char × List Char
  | [] => ([], [])
  | c :: rest =>
    if c.isDigit then
      let p := takeDigits rest
      (c :: p.1, p.2)
    else ([], c :: rest)

/-- The optional `(?:,(\d+))?` group: a comma followed by at least one
digit is consumed and captured; otherwise nothing is consumed and the
capture is absent.  (When a comma is present but `" \+"` or `" @@"` does
not follow the digits, the regex cannot backtrack into a match either,
because the character after the empty optional group would be `','`.) -/
def optCount : List Char → Option (List Char) × List Char
  | ',' :: rest =>
    let p := takeDigits rest
    if p.1.isEmpty then (none, ',' :: rest) else (some p.1, p.2)
  | l => (none, l)

/-- The four capture groups of the hunk header regex: old start, optional
old count, new start, optional new count (each as its digit characters). -/
structure HunkCaps where
  g1 : List Char
  g2 : Option (List Char)
  g3 : List Char
  g4 : Option (List Char)
deriving DecidableEq, Repr

/-- Model of `hunk_re.captures(line)` from the source: the capture groups when the
line matches the hunk header pattern, `none` otherwise. -/
def hunkCaptures (l : List Char) : Option HunkCaps :=
  (dropLit hdrStart l).bind fun r1 =>
    let p1 := takeDigits r1
    if p1.1.isEmpty then none
    else
      let q2 := optCount p1.2
      (dropLit hdrMid q2.2).bind fun r2 =>
        let p3 := takeDigits r2
        if p3.1.isEmpty then none
        else
          let q4 := optCount p3.2
          (dropLit hdrEnd q4.2).map fun _ => ⟨p1.1, q2.1, p3.1, q4.1⟩

/-! ### Count parsing -/

/-- Decimal value of a digit run. -/
def natOfDigits (ds : List Char) : Nat :=
  ds.foldl (fun a c => a * 10 + (c.toNat - 48)) 0

/-- Rust `str::parse::<usize>()` on a capture: succeeds on a non-empty
all-digit string whose value fits in 64 bits, fails otherwise.  (The
regex guarantees non-empty digits, so the only reachable failure is
overflow past `usize::MAX`.) -/
def parseUsize (ds : List Char) : Option Nat :=
  if ds.isEmpty then none
  else if ds.all Char.isDigit then
    let n := natOfDigits ds
    if n < 2 ^ 64 then some n else none
  else none

/-- Model of
`caps.get(i).map(|m| m.as_str().parse::<usize>().unwrap_or(1)).unwrap_or(1)`
of the source (lib.rs lines 53-60): an absent group defaults to 1, and a
present group whose parse fails also falls back to 1. -/
def countOf : Option (List Char) → Nat
  | none => 1
  | some ds => (parseUsize ds).getD 1

/-! ### The validator state machine -/

/-- The mutable locals of `validate_patch` (lib.rs lines 27-32). -/
structure VState where
  saw_hunk : Bool
  in_hunk : Bool
  expected_old : Nat
  expected_new : Nat
  seen_old : Nat
  seen_new : Nat
deriving DecidableEq, Repr

/-- Initial validator state. -/
def VState.init : VState := ⟨false, false, 0, 0, 0, 0⟩

/-- The old-side mismatch diagnostic (lib.rs lines 40 and 104). -/
def oldMismatch (expected seen : Nat) : String :=
  "Old-side hunk line count mismatch: expected " ++ toString expected ++
    ", got " ++ toString seen

/-- The new-side mismatch diagnostic (lib.rs lines 46 and 110). -/
def newMismatch (expected seen : Nat) : String :=
  "New-side hunk line count mismatch: expected " ++ toString expected ++
    ", got " ++ toString seen

/-- The unsupported-line diagnostic (lib.rs line 93). -/
def unsupportedMsg (l : List Char) : String :=
  "Unsupported patch line in hunk: " ++ String.mk l

/-- The no-hunk diagnostic (lib.rs line 97). -/
def noHunkMsg : String :=
  "Patch must contain at least one unified diff hunk (@@ ...)."

/-- Close out the current hunk (lib.rs lines 37-48 and 101-112): the old
side is checked first, each side only when its expected count is
positive; `some` is the early failure result, `none` means the checks
passed. -/
def closeOut (st : VState) : Option (Bool × String) :=
  if st.expected_old > 0 ∧ st.seen_old ≠ st.expected_old then
    some (false, oldMismatch st.expected_old st.seen_old)
  else if st.expected_new > 0 ∧ st.seen_new ≠ st.expected_new then
    some (false, newMismatch st.expected_new st.seen_new)
  else none

/-- State after a hunk header is accepted (lib.rs lines 51-62). -/
def startHunk (caps : HunkCaps) : VState :=
  ⟨true, true, countOf caps.g2, countOf caps.g4, 0, 0⟩

/-- The no-newline marker literal `"\ No newline"`. -/
def noNewlineMarker : List Char :=
  ['\\', ' ', 'N', 'o', ' ', 'n', 'e', 'w', 'l', 'i', 'n', 'e']

/-- Literal `"--- "`. -/
def oldFileMarker : List Char := ['-', '-', '-', ' ']

/-- Literal `"+++ "`. -/
def newFileMarker : List Char := ['+', '+', '+', ' ']

/-- One iteration of the `for line in patch.lines()` loop (lib.rs lines
34-94): `Sum.inl` is an early `return`, `Sum.inr` the state carried to
the next line.  The branch order is exactly that of the source; in
particular the `'-'`/`'+'` tests precede the `"--- "`/`"+++ "` tests. -/
def stepLine (st : VState) (l : List Char) : Sum (Bool × String) VState :=
  match hunkCaptures l with
  | some caps =>
    if st.in_hunk then
      match closeOut st with
      | some r => Sum.inl r
      | none => Sum.inr (startHunk caps)
    else Sum.inr (startHunk caps)
  | none =>
    if st.in_hunk = false then Sum.inr st
    else if [' '].isPrefixOf l then
      Sum.inr { st with seen_old := st.seen_old + 1, seen_new := st.seen_new + 1 }
    else if ['-'].isPrefixOf l then
      Sum.inr { st with seen_old := st.seen_old + 1 }
    else if ['+'].isPrefixOf l then
      Sum.inr { st with seen_new := st.seen_new + 1 }
    else if noNewlineMarker.isPrefixOf l then Sum.inr st
    else if oldFileMarker.isPrefixOf l ∨ newFileMarker.isPrefixOf l then Sum.inr st
    else Sum.inl (false, unsupportedMsg l)

/-- Run the loop over all lines. -/
def runLines : VState → List (List Char) → Sum (Bool × String) VState
  | st, [] => Sum.inr st
  | st, l :: ls =>
    match stepLine st l with
    | Sum.inl r => Sum.inl r
    | Sum.inr st2 => runLines st2 ls

/-- End-of-input handling (lib.rs lines 96-115). -/
def finish (st : VState) : Bool × String :=
  if st.saw_hunk = false then (false, noHunkMsg)
  else if st.in_hunk then
    match closeOut st with
    | some r => r
    | none => (true, "ok")
  else (true, "ok")

/-- The function `validate_patch` (lib.rs lines 19-116), as the returned
`(valid, reason)` pair.  `patch.trim().is_empty()` is modelled as every
character being Rust whitespace. -/
def validate_patch (patch : String) : Bool × String :=
  if patch.toList.all isRustWhitespace then (false, "Patch is empty")
  else
    match runLines VState.init (rustLines patch.toList) with
    | Sum.inl r => r
    | Sum.inr st => finish st

/-! ### The process executor

`execute_command_argv` (lib.rs lines 118-206) spawns a child process,
waits for it with a deadline, kills it on timeout, then reads both
output pipes.  The operating-system effects are embedded as an oracle
(`OsWorld`) describing the outcome of each platform call; the Lean
function mirrors the source's control flow over that oracle.  The `f64`
timeout is modelled as an exact rational. -/

/-- Rust `std::process::ExitStatus`: normal termination with an exit
code, or termination by a signal. -/
inductive ExitSt where
  | exited (code : Int)
  | signaled (sig : Nat)
deriving DecidableEq, Repr

/-- Model of `ExitStatus::code()`: the exit code for a normal exit, `None` for a
signal death. -/
def ExitSt.code : ExitSt → Option Int
  | .exited c => some c
  | .signaled _ => none

/-- Model of `ExitStatus::success()`: termination with exit code zero. -/
def ExitSt.success : ExitSt → Bool
  | .exited c => c == 0
  | .signaled _ => false

/-- Oracle for the platform calls made by one `execute_command_argv`
call: the spawn outcome, the outcome of `wait_timeout` as a function of
the requested duration in milliseconds (`Except.error` = OS wait error,
`some` status = child exited within the deadline, `none` = deadline
elapsed), and the text produced by `read_to_end` on each pipe after
lossy UTF-8 decoding (`none` = the read itself failed). -/
structure OsWorld where
  spawnErr : Option String
  wait : Nat → Except String (Option ExitSt)
  stdoutRead : Option String
  stderrRead : Option String

/-- The returned quintuple `(success, exit_code, stdout, stderr, error)`. -/
structure ExecResult where
  success : Bool
  exit_code : Int
  stdout : String
  stderr : String
  error : String
deriving DecidableEq, Repr

/-- Model of
`Duration::from_millis((timeout_seconds.max(0.001) * 1000.0) as u64)`
(lib.rs line 150): clamp to a one-millisecond floor, then truncate to
whole milliseconds.  The `f64` arithmetic is modelled exactly over `ℚ`
(the `as u64` cast truncates toward zero; saturation at `u64::MAX` is
out of the modelled range). -/
def durationMs (timeout_seconds : ℚ) : ℕ :=
  (⌊max timeout_seconds (1 / 1000) * 1000⌋).toNat

/-- Round to the nearest integer, ties to even, as Rust float formatting
with a fixed precision does. -/
def roundHalfEven (x : ℚ) : ℤ :=
  let fl := ⌊x⌋
  let fr := x - fl
  if 1 / 2 < fr then fl + 1
  else if fr < 1 / 2 then fl
  else if fl % 2 = 0 then fl else fl + 1

/-- One-decimal formatting of a non-negative rational. -/
def fmt1abs (t : ℚ) : String :=
  let n := (roundHalfEven (t * 10)).toNat
  toString (n / 10) ++ "." ++ toString (n % 10)

/-- Rust `format!("{:.1}", t)` on the timeout value, modelled in exact
arithmetic. -/
def fmt1 (t : ℚ) : String :=
  if t < 0 then "-" ++ fmt1abs (-t) else fmt1abs t

/-- The timeout diagnostic (lib.rs line 192). -/
def timedOutMsg (timeout_seconds : ℚ) : String :=
  "Command timed out after " ++ fmt1 timeout_seconds ++ "s"

/-- lib.rs lines 150-205: everything after a successful spawn.  The wait
is consulted at the requested duration; on timeout the child is killed
and reaped (lib.rs lines 165-168) before the pipes are drained.  The
second component records whether the kill-and-reap pair ran. -/
def spawnedPhase (duration : ℕ) (timeout_seconds : ℚ) (os : OsWorld) :
    ExecResult × Bool :=
  match os.wait duration with
  | .error e => (⟨false, -1, "", "", "Wait error: " ++ e⟩, false)
  | .ok statusOpt =>
    let stdout_text := os.stdoutRead.getD ""
    let stderr_text := os.stderrRead.getD ""
    match statusOpt with
    | none =>
      (⟨false, -1, stdout_text, stderr_text, timedOutMsg timeout_seconds⟩, true)
    | some status =>
      let code := status.code.getD (-1)
      let ok := status.success
      (⟨ok, code, stdout_text, stderr_text,
        if ok then "" else "Exit code: " ++ toString code⟩, false)

/-- The function `execute_command_argv` (lib.rs lines 118-206) over the OS oracle.
`cwd` only configures the child's environment, so it does not appear in
the data flow of the returned result; it is kept for the signature.  The
boolean component is `true` exactly when the timeout path killed and
reaped the child. -/
def execute_command_argv (argv : List String) (cwd : String)
    (timeout_seconds : ℚ) (os : OsWorld) : ExecResult × Bool :=
  if argv.isEmpty then (⟨false, -1, "", "", "Empty argv"⟩, false)
  else
    match os.spawnErr with
    | some e => (⟨false, -1, "", "", "Spawn error: " ++ e⟩, false)
    | none =>
      let _ := cwd
      spawnedPhase (durationMs timeout_seconds) timeout_seconds os

/-! ### Diagnostics are never the success reason -/

/-- A failing validator result: `valid = false` with a reason other than
`"ok"`. -/
def isFail (r : Bool × String) : Prop := r.1 = false ∧ r.2 ≠ "ok"

lemma ne_ok_of_three_le_length (s : String) (h : 3 ≤ s.length) : s ≠ "ok" := by
  intro he
  rw [he] at h
  have h2 : ("ok" : String).length = 2 := rfl
  omega

lemma three_le_length_append_left (a b : String) (h : 3 ≤ a.length) :
    3 ≤ (a ++ b).length := by
  rw [String.length_append]
  omega

lemma oldMismatch_ne_ok (e s : Nat) : oldMismatch e s ≠ "ok" := by
  apply ne_ok_of_three_le_length
  unfold oldMismatch
  apply three_le_length_append_left
  apply three_le_length_append_left
  apply three_le_length_append_left
  decide

lemma newMismatch_ne_ok (e s : Nat) : newMismatch e s ≠ "ok" := by
  apply ne_ok_of_three_le_length
  unfold newMismatch
  apply three_le_length_append_left
  apply three_le_length_append_left
  apply three_le_length_append_left
  decide

lemma unsupportedMsg_ne_ok (l : List Char) : unsupportedMsg l ≠ "ok" := by
  apply ne_ok_of_three_le_length
  unfold unsupportedMsg
  apply three_le_length_append_left
  decide

lemma closeOut_isFail {st : VState} {r : Bool × String}
    (h : closeOut st = some r) : isFail r := by
  unfold closeOut at h
  split_ifs at h with h1 h2
  · cases h
    exact ⟨rfl, oldMismatch_ne_ok _ _⟩
  · cases h
    exact ⟨rfl, newMismatch_ne_ok _ _⟩

lemma stepLine_isFail {st : VState} {l : List Char} {r : Bool × String}
    (h : stepLine st l = Sum.inl r) : isFail r := by
  unfold stepLine at h
  split at h
  · split at h
    · split at h
      · cases h
        rename_i hco
        exact closeOut_isFail hco
      · cases h
    · cases h
  · split_ifs at h <;> cases h <;> exact ⟨rfl, unsupportedMsg_ne_ok _⟩

lemma runLines_isFail :
    ∀ (ls : List (List Char)) (st : VState) (r : Bool × String),
      runLines st ls = Sum.inl r → isFail r := by
  intro ls
  induction ls with
  | nil =>
    intro st r h
    cases h
  | cons l ls ih =>
    intro st r h
    unfold runLines at h
    cases hs : stepLine st l with
    | inl r2 =>
      rw [hs] at h
      cases h
      exact stepLine_isFail hs
    | inr st2 =>
      rw [hs] at h
      exact ih st2 r h

lemma finish_cases (st : VState) :
    finish st = (true, "ok") ∨ isFail (finish st) := by
  unfold finish
  split_ifs with h1 h2
  · exact Or.inr ⟨rfl, by decide⟩
  · cases hco : closeOut st with
    | some r => exact Or.inr (closeOut_isFail hco)
    | none => exact Or.inl rfl
  · exact Or.inl rfl

/-- C10: for every patch text, the pair returned by `validate_patch`
satisfies `valid = true` iff `reason = "ok"`: the successful return
carries exactly `"ok"` and every failing return carries a diagnostic
different from `"ok"`. -/
theorem c10_valid_iff_ok (patch : String) :
    (validate_patch patch).1 = true ↔ (validate_patch patch).2 = "ok" := by
  unfold validate_patch
  split_ifs with hw
  · constructor
    · intro h
      cases h
    · intro h
      exact absurd h (by decide)
  · cases hr : runLines VState.init (rustLines patch.toList) with
    | inl r =>
      obtain ⟨h1, h2⟩ := runLines_isFail _ _ _ hr
      change r.1 = true ↔ r.2 = "ok"
      rw [h1]
      constructor
      · intro h
        cases h
      · intro h
        exact absurd h h2
    | inr st =>
      change (finish st).1 = true ↔ (finish st).2 = "ok"
      rcases finish_cases st with h | ⟨h1, h2⟩
      · rw [h]
        constructor <;> intro <;> rfl
      · rw [h1]
        constructor
        · intro h
          cases h
        · intro h
          exact absurd h h2

/-! ### C5: empty and all-whitespace patches -/

/-- C5: an empty or all-whitespace patch short-circuits to
`(false, "Patch is empty")`, a reason distinct from the no-hunk reason
returned for a non-empty patch without any hunk header. -/
theorem c5_empty_patch (patch : String)
    (h : patch.toList.all isRustWhitespace = true) :
    validate_patch patch = (false, "Patch is empty") ∧
      validate_patch "no markers here" = (false, noHunkMsg) ∧
      noHunkMsg ≠ "Patch is empty" := by
  refine ⟨?_, by decide, by decide⟩
  unfold validate_patch
  rw [if_pos h]

theorem c5_empty_patch_witness :
    validate_patch "  \t\n" = (false, "Patch is empty") ∧
      validate_patch "no markers here" = (false, noHunkMsg) ∧
      noHunkMsg ≠ "Patch is empty" :=
  c5_empty_patch "  \t\n" (by decide)

/-! ### C8: omitted counts default to 1 -/

/-- C8: when a header line parses with the optional `,M` and `,Q` count
groups absent, the validator starts the hunk with
`expected_old = expected_new = 1`; in particular the patch
`"@@ -1 +1 @@\n-a\n+a\n"` validates as `(true, "ok")`. -/
theorem c8_default_counts (l : List Char) (caps : HunkCaps)
    (h : hunkCaptures l = some caps) (h2 : caps.g2 = none)
    (h4 : caps.g4 = none) :
    startHunk caps =
        { saw_hunk := true, in_hunk := true, expected_old := 1,
          expected_new := 1, seen_old := 0, seen_new := 0 } ∧
      validate_patch "@@ -1 +1 @@\n-a\n+a\n" = (true, "ok") := by
  refine ⟨?_, by decide⟩
  unfold startHunk
  rw [h2, h4]
  rfl

theorem c8_default_counts_witness :
    startHunk ⟨['1'], none, ['1'], none⟩ =
        { saw_hunk := true, in_hunk := true, expected_old := 1,
          expected_new := 1, seen_old := 0, seen_new := 0 } ∧
      validate_patch "@@ -1 +1 @@\n-a\n+a\n" = (true, "ok") :=
  c8_default_counts ("@@ -1 +1 @@".toList) ⟨['1'], none, ['1'], none⟩
    (by decide) rfl rfl

/-! ### C1: close-out checks are guarded by positive expected counts -/

/-- C1 counterexample: in the patch `"@@ -1,0 +1,1 @@\n-x\n+y\n"` the
final hunk ends with `seen_old = 1` while the header declared
`expected_old = 0` — a mismatch — yet `validate_patch` returns
`(true, "ok")`, because the old-side check is skipped when the declared
count is 0. -/
theorem c1_zero_count_counterexample :
    runLines VState.init (rustLines ("@@ -1,0 +1,1 @@\n-x\n+y\n".toList)) =
        Sum.inr ⟨true, true, 0, 1, 1, 1⟩ ∧
      validate_patch "@@ -1,0 +1,1 @@\n-x\n+y\n" = (true, "ok") := by
  decide

/-- C1 (amended): when a hunk is closed out — on a new hunk header while
in a hunk, or at end of input — a count mismatch ends validation with
`valid = false` and a reason naming the side and the expected and
observed counts, but each side is checked only when its declared
expected count is positive; a side declared with count 0 is never
checked. -/
theorem c1_closeout_guarded (st : VState) (l : List Char) (caps : HunkCaps)
    (hin : st.in_hunk = true) :
    (st.expected_old > 0 → st.seen_old ≠ st.expected_old →
        closeOut st = some (false, oldMismatch st.expected_old st.seen_old)) ∧
      ((st.expected_old = 0 ∨ st.seen_old = st.expected_old) →
        st.expected_new > 0 → st.seen_new ≠ st.expected_new →
        closeOut st = some (false, newMismatch st.expected_new st.seen_new)) ∧
      (st.expected_old = 0 → st.expected_new = 0 → closeOut st = none) ∧
      (hunkCaptures l = some caps → ∀ r, closeOut st = some r →
        stepLine st l = Sum.inl r) ∧
      (st.saw_hunk = true → ∀ r, closeOut st = some r → finish st = r) := by
  refine ⟨?_, ?_, ?_, ?_, ?_⟩
  · intro h1 h2
    unfold closeOut
    rw [if_pos ⟨h1, h2⟩]
  · intro hok h1 h2
    unfold closeOut
    rw [if_neg (by omega), if_pos ⟨h1, h2⟩]
  · intro h0 h0'
    unfold closeOut
    rw [if_neg (by omega), if_neg (by omega)]
  · intro hc r hr
    unfold stepLine
    rw [hc, hin, hr]
    rfl
  · intro hs r hr
    unfold finish
    rw [hs, hin, hr]
    rfl

theorem c1_closeout_guarded_witness :
    closeOut ⟨true, true, 2, 3, 1, 3⟩ = some (false, oldMismatch 2 1) ∧
      stepLine ⟨true, true, 2, 3, 1, 3⟩ ("@@ -1 +1 @@".toList) =
        Sum.inl (false, oldMismatch 2 1) ∧
      finish ⟨true, true, 2, 3, 1, 3⟩ = (false, oldMismatch 2 1) := by
  have h := c1_closeout_guarded ⟨true, true, 2, 3, 1, 3⟩
    ("@@ -1 +1 @@".toList) ⟨['1'], none, ['1'], none⟩ rfl
  have hc : closeOut ⟨true, true, 2, 3, 1, 3⟩ = some (false, oldMismatch 2 1) :=
    h.1 (by decide) (by decide)
  exact ⟨hc, h.2.2.2.1 (by decide) _ hc, h.2.2.2.2 rfl _ hc⟩

/-! ### C2: `--- `/`+++ ` lines inside a hunk are counted, not ignored -/

/-- C2 counterexample: while in a hunk, the line `"--- a"` increments
`seen_old` (the `'-'` test fires before the `"--- "` test) and
`"+++ b"` increments `seen_new`; consequently
`"@@ -1,1 +1,1 @@\n--- a\n+y\n"` validates as `(true, "ok")` with the
`"--- a"` line supplying the entire old-side count — had the line been
ignored, the old side would have mismatched. -/
theorem c2_marker_counterexample :
    stepLine ⟨true, true, 1, 1, 0, 0⟩ ("--- a".toList) =
        Sum.inr ⟨true, true, 1, 1, 1, 0⟩ ∧
      stepLine ⟨true, true, 1, 1, 0, 0⟩ ("+++ b".toList) =
        Sum.inr ⟨true, true, 1, 1, 0, 1⟩ ∧
      validate_patch "@@ -1,1 +1,1 @@\n--- a\n+y\n" = (true, "ok") := by
  decide

/-- C2 (amended): while in a hunk, a line starting with `"--- "` is
counted as a removal line (`seen_old` increments) and a line starting
with `"+++ "` as an addition line (`seen_new` increments); neither
triggers an unsupported-line failure.  The dedicated ignore branch for
these markers (lib.rs lines 89-91) is unreachable, because the `'-'` and
`'+'` tests come first. -/
theorem c2_marker_lines (st : VState) (rest : List Char)
    (hin : st.in_hunk = true) :
    stepLine st ('-' :: '-' :: '-' :: ' ' :: rest) =
        Sum.inr { st with seen_old := st.seen_old + 1 } ∧
      stepLine st ('+' :: '+' :: '+' :: ' ' :: rest) =
        Sum.inr { st with seen_new := st.seen_new + 1 } := by
  have hn1 : hunkCaptures ('-' :: '-' :: '-' :: ' ' :: rest) = none := rfl
  have hn2 : hunkCaptures ('+' :: '+' :: '+' :: ' ' :: rest) = none := rfl
  constructor
  · unfold stepLine
    rw [hn1, hin]
    rfl
  · unfold stepLine
    rw [hn2, hin]
    rfl

theorem c2_marker_lines_witness :
    stepLine ⟨true, true, 5, 5, 0, 0⟩ ("--- a".toList) =
        Sum.inr ⟨true, true, 5, 5, 1, 0⟩ ∧
      stepLine ⟨true, true, 5, 5, 0, 0⟩ ("+++ a".toList) =
        Sum.inr ⟨true, true, 5, 5, 0, 1⟩ :=
  c2_marker_lines ⟨true, true, 5, 5, 0, 0⟩ ("a".toList) rfl

/-! ### C4: a present but unparsable count silently becomes 1 -/

/-- C4 counterexample: the count group `99999999999999999999999` is
present in the header and fails to parse as a `usize` (it exceeds
`2 ^ 64 - 1`), the value 1 is substituted — and nothing surfaces the
substitution: the validator's result on that patch is identical to the
result for an explicit count of 1, and `validate_patch` returns nothing
besides this pair. -/
theorem c4_overflow_counterexample :
    parseUsize ("99999999999999999999999".toList) = none ∧
      hunkCaptures ("@@ -1,99999999999999999999999 +1,1 @@".toList) =
        some ⟨['1'], some ("99999999999999999999999".toList), ['1'],
          some ['1']⟩ ∧
      validate_patch "@@ -1,99999999999999999999999 +1,1 @@\n-x\n+y\n" =
        validate_patch "@@ -1,1 +1,1 @@\n-x\n+y\n" ∧
      validate_patch "@@ -1,1 +1,1 @@\n-x\n+y\n" = (true, "ok") := by
  decide

/-- C4 (amended): when a count group is present but fails to parse as a
non-negative 64-bit integer, the hunk header parser substitutes 1
instead of failing the whole patch; the substitution is silent — the
resulting count is exactly the count of an explicit `,1` group, so it is
not observable by the caller. -/
theorem c4_silent_default (ds : List Char) (h1 : ds ≠ [])
    (h2 : ds.all Char.isDigit = true) (h3 : 2 ^ 64 ≤ natOfDigits ds) :
    parseUsize ds = none ∧ countOf (some ds) = 1 ∧
      countOf (some ds) = countOf (some ['1']) := by
  have hp : parseUsize ds = none := by
    unfold parseUsize
    rw [if_neg (by simp [h1]), if_pos h2, if_neg (by omega)]
  refine ⟨hp, ?_, ?_⟩
  · show (parseUsize ds).getD 1 = 1
    rw [hp]
    rfl
  · show (parseUsize ds).getD 1 = (parseUsize ['1']).getD 1
    rw [hp]
    decide

theorem c4_silent_default_witness :
    parseUsize ("99999999999999999999999".toList) = none ∧
      countOf (some ("99999999999999999999999".toList)) = 1 ∧
      countOf (some ("99999999999999999999999".toList)) =
        countOf (some ['1']) :=
  c4_silent_default ("99999999999999999999999".toList) (by decide)
    (by decide) (by decide)

/-! ### C6: the success invariant of the executor -/

/-- C6: `success = true` implies `error = ""` and `exit_code = 0`, the
process's real exit code; and every non-success path — empty argv, spawn
failure, wait failure, timeout, non-zero exit, signal death — returns
`success = false`. -/
theorem c6_success_invariant (argv : List String) (cwd : String) (t : ℚ)
    (os : OsWorld) :
    ((execute_command_argv argv cwd t os).1.success = true →
        (execute_command_argv argv cwd t os).1.error = "" ∧
          (execute_command_argv argv cwd t os).1.exit_code = 0 ∧
          os.wait (durationMs t) = .ok (some (.exited 0))) ∧
      (argv = [] → (execute_command_argv argv cwd t os).1.success = false) ∧
      (∀ e, os.spawnErr = some e →
        (execute_command_argv argv cwd t os).1.success = false) ∧
      (∀ e, os.wait (durationMs t) = .error e →
        (execute_command_argv argv cwd t os).1.success = false) ∧
      (os.wait (durationMs t) = .ok none →
        (execute_command_argv argv cwd t os).1.success = false) ∧
      (∀ c, c ≠ 0 → os.wait (durationMs t) = .ok (some (.exited c)) →
        (execute_command_argv argv cwd t os).1.success = false) ∧
      (∀ sig, os.wait (durationMs t) = .ok (some (.signaled sig)) →
        (execute_command_argv argv cwd t os).1.success = false) := by
  unfold execute_command_argv spawnedPhase
  by_cases ha : argv.isEmpty
  · simp [ha]
  · cases hs : os.spawnErr with
    | some e => simp [ha, hs]
    | none =>
      cases hw : os.wait (durationMs t) with
      | error e => simp [ha, hs, hw]
      | ok so =>
        cases so with
        | none => simp [ha, hs, hw]
        | some status =>
          cases status with
          | exited c =>
            by_cases hc : c = 0
            · subst hc
              simp [ha, hs, hw, ExitSt.success, ExitSt.code]
              exact ⟨fun h => ha (by simp [h]), fun c hc h0 => hc h0.symm⟩
            · simp [ha, hs, hw, ExitSt.success, ExitSt.code, hc]
          | signaled sig =>
            simp [ha, hs, hw, ExitSt.success, ExitSt.code]

theorem c6_success_invariant_witness :
    (execute_command_argv ["true"] "" 5
          ⟨none, fun _ => .ok (some (.exited 0)), some "", some ""⟩).1.error =
        "" ∧
      (execute_command_argv ["true"] "" 5
          ⟨none, fun _ => .ok (some (.exited 0)), some "", some ""⟩).1.exit_code =
        0 ∧
      (⟨none, fun _ => .ok (some (.exited 0)), some "", some ""⟩ :
          OsWorld).wait (durationMs 5) =
        .ok (some (.exited 0)) :=
  (c6_success_invariant ["true"] "" 5
    ⟨none, fun _ => .ok (some (.exited 0)), some "", some ""⟩).1 rfl

/-! ### C7: the timeout path -/

/-- C7: when the deadline elapses before the child exits (the bounded
wait yields no status), the call kills and reaps the child (the `true`
flag), drains whatever output was produced, and returns
`success = false`, `exit_code = -1`, the partial stdout/stderr and the
error `"Command timed out after <timeout>s"`. -/
theorem c7_timeout_path (argv : List String) (cwd : String) (t : ℚ)
    (os : OsWorld) (ha : argv ≠ []) (hs : os.spawnErr = none)
    (hw : os.wait (durationMs t) = .ok none) :
    execute_command_argv argv cwd t os =
      (⟨false, -1, os.stdoutRead.getD "", os.stderrRead.getD "",
        timedOutMsg t⟩, true) := by
  unfold execute_command_argv spawnedPhase
  simp [ha, hs, hw]

theorem c7_timeout_path_witness :
    execute_command_argv ["sleep"] "" 5
        ⟨none, fun _ => .ok none, some "partial out", some "partial err"⟩ =
      (⟨false, -1, "partial out", "partial err",
        "Command timed out after 5.0s"⟩, true) := by
  have hm : timedOutMsg 5 = "Command timed out after 5.0s" := by
    with_unfolding_all decide
  have h := c7_timeout_path ["sleep"] "" 5
    ⟨none, fun _ => .ok none, some "partial out", some "partial err"⟩
    (by simp) rfl rfl
  rw [h, hm]
  rfl

/-! ### C9: sub-millisecond timeouts are clamped, not rejected -/

/-- C9: a `timeout_seconds` at or below 0.001 — zero and negative values
included — is not rejected: the wait duration is clamped to the
one-millisecond floor (`max(timeout_seconds, 0.001)` seconds, truncated
to whole milliseconds, i.e. exactly 1 ms), and for a non-empty argv the
call proceeds to the spawn-and-wait phase with that duration. -/
theorem c9_timeout_floor (t : ℚ) (ht : t ≤ 1 / 1000) :
    durationMs t = 1 ∧
      ∀ (argv : List String) (cwd : String) (os : OsWorld), argv ≠ [] →
        execute_command_argv argv cwd t os =
          (if argv.isEmpty then (⟨false, -1, "", "", "Empty argv"⟩, false)
           else
             match os.spawnErr with
             | some e => (⟨false, -1, "", "", "Spawn error: " ++ e⟩, false)
             | none => spawnedPhase 1 t os) := by
  have hd : durationMs t = 1 := by
    unfold durationMs
    rw [max_eq_right ht, show (1 / 1000 : ℚ) * 1000 = 1 by norm_num,
      Int.floor_one]
    rfl
  refine ⟨hd, fun argv cwd os ha => ?_⟩
  unfold execute_command_argv
  rw [hd]

theorem c9_timeout_floor_witness :
    durationMs 0 = 1 ∧
      execute_command_argv ["sh"] "" 0 ⟨none, fun _ => .ok none, none, none⟩ =
        spawnedPhase 1 0 ⟨none, fun _ => .ok none, none, none⟩ := by
  have h := c9_timeout_floor 0 (by norm_num)
  refine ⟨h.1, ?_⟩
  rw [h.2 ["sh"] "" ⟨none, fun _ => .ok none, none, none⟩ (by simp)]
  rfl

end Clawlet
